import Mathlib

/-!
Shallow embedding of the ML-DatabaseWorker backend (TypeScript, Cloudflare
Workers + D1).  Each repository method and route handler is translated into a
pure Lean function over explicit table states (lists of rows).  A D1 table is
modelled as a `List` of row structures; `SELECT ... WHERE id = ?` becomes
`List.find?`, `UPDATE ... WHERE ...` becomes `List.map` guarded by the WHERE
predicate, `DELETE ... WHERE ...` becomes `List.filter`, and `INSERT` appends a
row whose id is one past the current maximum id (SQLite rowid assignment).
Thrown `Error(msg)` values are modelled as `Except.error msg`; every stateful
operation returns its result together with the table state that reflects all
writes issued before a potential throw.
-/

namespace MLDW

/-- Row of the `locks` table, after `src/repositories/lockRepository.ts` and
the `Lock` entity: columns `id`, `lock_name`, `album_title`, `seal_date`
(nullable ISO date), `scan_count`, `last_scan_milestone` (nullable),
`created_at`, `user_id` (nullable), `upgraded_storage`. -/
structure Lock where
  id : Nat
  lock_name : String
  album_title : String
  seal_date : Option String
  scan_count : Nat
  last_scan_milestone : Option Nat
  created_at : String
  user_id : Option Nat
  upgraded_storage : Bool
  deriving DecidableEq, Repr

/-- `LockRepository.findById`: `SELECT * FROM locks WHERE id = ?`, returning
the first matching row or `null`. -/
def findById (db : List Lock) (id : Nat) : Option Lock :=
  db.find? (fun l => l.id == id)

/-- Modelled from the spec: the fixed ascending milestone list imported from
`src/constants/milestones.ts` (`SCAN_MILESTONES`), a file not present in the
sources; the spec fixes the milestone set to {10, 25, 50, 100}. -/
def SCAN_MILESTONES : List Nat := [10, 25, 50, 100]

/-- Row effect of `UPDATE locks SET scan_count = ?, last_scan_milestone = ?`. -/
def setScanColumns (n : Nat) (ms : Option Nat) (x : Lock) : Lock :=
  { x with scan_count := n, last_scan_milestone := ms }

/-- `LockRepository.incrementScanCount`: read the lock, compute the new scan
count and the newly reached milestone (if the new count is a member of
`SCAN_MILESTONES` and strictly exceeds the stored milestone, 0 when `NULL`),
persist both columns in one `UPDATE`, re-read the row and return it together
with the reported milestone. -/
def incrementScanCount (db : List Lock) (id : Nat) :
    Except String (Lock × Option Nat) × List Lock :=
  match findById db id with
  | none => (Except.error "Lock not found before scan count update", db)
  | some existingLock =>
    let currentMilestone := existingLock.last_scan_milestone.getD 0
    let newScanCount := existingLock.scan_count + 1
    let reached :=
      if SCAN_MILESTONES.contains newScanCount && decide (newScanCount > currentMilestone)
        then some newScanCount else none
    let milestoneToPersist := reached.getD currentMilestone
    let db' := db.map (fun l =>
      if l.id == id then setScanColumns newScanCount (some milestoneToPersist) l else l)
    match findById db' id with
    | none => (Except.error "Lock not found after scan count update", db')
    | some updatedLock => (Except.ok (updatedLock, reached), db')

/-- Run `n` consecutive `incrementScanCount` calls against one lock,
collecting the reported milestone of each call (a failed call contributes
`none`) and the final table state. -/
def scanRun (db : List Lock) (id : Nat) : Nat → List (Option Nat) × List Lock
  | 0 => ([], db)
  | n + 1 =>
    let r := incrementScanCount db id
    let reported := match r.1 with
      | Except.ok p => p.2
      | Except.error _ => none
    let rest := scanRun r.2 id n
    (reported :: rest.1, rest.2)

/-- A fresh placeholder lock as created by `LockRepository.create` with all
defaults: scan count 0, milestone never set. -/
def freshLock : Lock :=
  { id := 1
    lock_name := "Memory Lock"
    album_title := "Wonderful Memories"
    seal_date := none
    scan_count := 0
    last_scan_milestone := none
    created_at := "2024-01-01T00:00:00.000Z"
    user_id := none
    upgraded_storage := false }

/-- `find?` commutes with mapping a function that does not change whether the
predicate holds. -/
theorem find?_map_of_pred {α : Type} (q : α → Bool) (g : α → α)
    (hg : ∀ a, q (g a) = q a) (xs : List α) :
    (xs.map g).find? q = (xs.find? q).map g := by
  induction xs with
  | nil => rfl
  | cons a xs ih =>
    by_cases hq : q a = true
    · rw [List.map_cons, List.find?_cons_of_pos _ (by rw [hg]; exact hq),
        List.find?_cons_of_pos _ hq, Option.map_some']
    · rw [List.map_cons, List.find?_cons_of_neg _ (by rw [hg]; simpa using hq),
        List.find?_cons_of_neg _ (by simpa using hq), ih]

/-- Reading a lock back after a keyed `UPDATE` returns the transformed row,
provided the transformation keeps the id column. -/
theorem findById_map_update (db : List Lock) (id : Nat) (f : Lock → Lock)
    (hf : ∀ l, (f l).id = l.id) :
    findById (db.map (fun l => if l.id == id then f l else l)) id
      = (findById db id).map (fun l => if l.id == id then f l else l) := by
  unfold findById
  exact find?_map_of_pred _ _ (fun a => by by_cases h : a.id == id <;> simp [h, hf]) db

/-- The `milestoneReached` value computed by `incrementScanCount` for a given
current row. -/
def milestoneReached (l : Lock) : Option Nat :=
  if SCAN_MILESTONES.contains (l.scan_count + 1) &&
      decide (l.scan_count + 1 > l.last_scan_milestone.getD 0)
    then some (l.scan_count + 1) else none

/-- The row persisted by `incrementScanCount` for a given current row. -/
def scanStepLock (l : Lock) : Lock :=
  setScanColumns (l.scan_count + 1)
    (some ((milestoneReached l).getD (l.last_scan_milestone.getD 0))) l

/-- One `incrementScanCount` call on an existing lock, in closed form. -/
theorem incrementScanCount_eq (db : List Lock) (id : Nat) (l : Lock)
    (h : findById db id = some l) :
    incrementScanCount db id = (Except.ok (scanStepLock l, milestoneReached l),
      db.map (fun x => if x.id == id then
        setScanColumns (l.scan_count + 1)
          (some ((milestoneReached l).getD (l.last_scan_milestone.getD 0))) x else x)) := by
  have hid : (l.id == id) = true := by
    have h' : db.find? (fun x => x.id == id) = some l := h
    have h2 := List.find?_some h'
    simpa using h2
  have hmap := findById_map_update db id
    (setScanColumns (l.scan_count + 1)
      (some ((milestoneReached l).getD (l.last_scan_milestone.getD 0))))
    (fun _ => rfl)
  rw [h, Option.map_some', if_pos hid] at hmap
  simp only [incrementScanCount, h, milestoneReached] at *
  rw [hmap]
  rfl

/-- Reading the lock back after `incrementScanCount` yields the persisted row. -/
theorem incrementScanCount_readback (db : List Lock) (id : Nat) (l : Lock)
    (h : findById db id = some l) :
    findById (incrementScanCount db id).2 id = some (scanStepLock l) := by
  have hid : (l.id == id) = true := by
    have h' : db.find? (fun x => x.id == id) = some l := h
    have h2 := List.find?_some h'
    simpa using h2
  have hmap := findById_map_update db id
    (setScanColumns (l.scan_count + 1)
      (some ((milestoneReached l).getD (l.last_scan_milestone.getD 0))))
    (fun _ => rfl)
  rw [h, Option.map_some', if_pos hid] at hmap
  rw [incrementScanCount_eq db id l h]
  exact hmap

/-- `scanStepLock` and `milestoneReached` through the Prop-level milestone
condition. -/
theorem scanStepLock_fields (l : Lock) :
    (scanStepLock l).scan_count = l.scan_count + 1
      ∧ (scanStepLock l).last_scan_milestone =
        some (if l.scan_count + 1 ∈ SCAN_MILESTONES ∧
            l.last_scan_milestone.getD 0 < l.scan_count + 1
          then l.scan_count + 1 else l.last_scan_milestone.getD 0)
      ∧ milestoneReached l =
        (if l.scan_count + 1 ∈ SCAN_MILESTONES ∧
            l.last_scan_milestone.getD 0 < l.scan_count + 1
          then some (l.scan_count + 1) else none) := by
  refine ⟨rfl, ?_, ?_⟩ <;>
    by_cases hc : l.scan_count + 1 ∈ SCAN_MILESTONES ∧
        l.last_scan_milestone.getD 0 < l.scan_count + 1 <;>
      simp [scanStepLock, setScanColumns, milestoneReached, hc]

/-- C1: `incrementScanCount` on an existing lock with stored count `c` and
stored milestone `m` (0 when `NULL`) persists `scan_count = c + 1`; when
`c + 1` is in the milestone set and exceeds `m` it persists
`last_scan_milestone = c + 1` in the same write and reports `c + 1`,
otherwise it keeps milestone value `m` and reports nothing.  Concretely, a
fresh lock over 20 increments reports no milestone on increments 1-9,
milestone 10 on the tenth, and never reports 10 again on increments 11-20. -/
theorem incrementScanCount_milestone_spec (db : List Lock) (id : Nat) (l : Lock)
    (h : findById db id = some l) :
    (∃ l', (incrementScanCount db id).1 = Except.ok (l',
          if l.scan_count + 1 ∈ SCAN_MILESTONES ∧
              l.last_scan_milestone.getD 0 < l.scan_count + 1
            then some (l.scan_count + 1) else none)
      ∧ findById (incrementScanCount db id).2 id = some l'
      ∧ l'.scan_count = l.scan_count + 1
      ∧ l'.last_scan_milestone =
          some (if l.scan_count + 1 ∈ SCAN_MILESTONES ∧
              l.last_scan_milestone.getD 0 < l.scan_count + 1
            then l.scan_count + 1 else l.last_scan_milestone.getD 0))
    ∧ (scanRun [freshLock] 1 20).1
        = List.replicate 9 none ++ some 10 :: List.replicate 10 none := by
  refine ⟨?_, by decide⟩
  obtain ⟨h1, h2, h3⟩ := scanStepLock_fields l
  refine ⟨scanStepLock l, ?_, incrementScanCount_readback db id l h, h1, h2⟩
  rw [incrementScanCount_eq db id l h, ← h3]

/-- Closed witness for C1 at a concrete one-lock table. -/
theorem incrementScanCount_milestone_spec_witness :
    (∃ l', (incrementScanCount [freshLock] 1).1 = Except.ok (l',
          if freshLock.scan_count + 1 ∈ SCAN_MILESTONES ∧
              freshLock.last_scan_milestone.getD 0 < freshLock.scan_count + 1
            then some (freshLock.scan_count + 1) else none)
      ∧ findById (incrementScanCount [freshLock] 1).2 1 = some l'
      ∧ l'.scan_count = freshLock.scan_count + 1
      ∧ l'.last_scan_milestone =
          some (if freshLock.scan_count + 1 ∈ SCAN_MILESTONES ∧
              freshLock.last_scan_milestone.getD 0 < freshLock.scan_count + 1
            then freshLock.scan_count + 1 else freshLock.last_scan_milestone.getD 0))
    ∧ (scanRun [freshLock] 1 20).1
        = List.replicate 9 none ++ some 10 :: List.replicate 10 none :=
  incrementScanCount_milestone_spec [freshLock] 1 freshLock (by decide)

/-- C2: across any sequence of scan increments on an existing lock whose
stored milestone value satisfies the data-model invariant, the scan counter
grows by exactly one per increment, the stored milestone never decreases,
stays at most the scan counter, and only ever holds 0 or a member of the
fixed milestone list. -/
theorem scan_sequence_invariants (db : List Lock) (id : Nat) (l : Lock) (n : Nat)
    (h : findById db id = some l)
    (hle : l.last_scan_milestone.getD 0 ≤ l.scan_count)
    (hval : l.last_scan_milestone.getD 0 = 0 ∨ l.last_scan_milestone.getD 0 ∈ SCAN_MILESTONES) :
    ∃ l', findById (scanRun db id n).2 id = some l'
      ∧ l'.scan_count = l.scan_count + n
      ∧ l.last_scan_milestone.getD 0 ≤ l'.last_scan_milestone.getD 0
      ∧ l'.last_scan_milestone.getD 0 ≤ l'.scan_count
      ∧ (l'.last_scan_milestone.getD 0 = 0 ∨ l'.last_scan_milestone.getD 0 ∈ SCAN_MILESTONES) := by
  induction n generalizing db l with
  | zero => exact ⟨l, h, rfl, le_refl _, hle, hval⟩
  | succ n ih =>
    obtain ⟨h1, h2, -⟩ := scanStepLock_fields l
    have hread := incrementScanCount_readback db id l h
    have hgetD : (scanStepLock l).last_scan_milestone.getD 0 =
        (if l.scan_count + 1 ∈ SCAN_MILESTONES ∧
            l.last_scan_milestone.getD 0 < l.scan_count + 1
          then l.scan_count + 1 else l.last_scan_milestone.getD 0) := by
      rw [h2]; rfl
    have hMle : (scanStepLock l).last_scan_milestone.getD 0 ≤ (scanStepLock l).scan_count := by
      rw [hgetD, h1]; split
      · exact le_refl _
      · exact Nat.le_succ_of_le hle
    have hMval : (scanStepLock l).last_scan_milestone.getD 0 = 0 ∨
        (scanStepLock l).last_scan_milestone.getD 0 ∈ SCAN_MILESTONES := by
      rw [hgetD]; split
      · rename_i hcnd; exact Or.inr hcnd.1
      · exact hval
    have hMmono : l.last_scan_milestone.getD 0 ≤ (scanStepLock l).last_scan_milestone.getD 0 := by
      rw [hgetD]; split
      · rename_i hcnd; omega
      · exact le_refl _
    obtain ⟨l', hf, hsc, hmono, hle', hval'⟩ :=
      ih (incrementScanCount db id).2 (scanStepLock l) hread hMle hMval
    refine ⟨l', ?_, ?_, le_trans hMmono hmono, hle', hval'⟩
    · simpa [scanRun] using hf
    · rw [hsc, h1]; omega
/-- Closed witness for C2 at a concrete one-lock table and three increments. -/
theorem scan_sequence_invariants_witness :
    ∃ l', findById (scanRun [freshLock] 1 3).2 1 = some l'
      ∧ l'.scan_count = freshLock.scan_count + 3
      ∧ freshLock.last_scan_milestone.getD 0 ≤ l'.last_scan_milestone.getD 0
      ∧ l'.last_scan_milestone.getD 0 ≤ l'.scan_count
      ∧ (l'.last_scan_milestone.getD 0 = 0 ∨ l'.last_scan_milestone.getD 0 ∈ SCAN_MILESTONES) :=
  scan_sequence_invariants [freshLock] 1 freshLock 3 (by decide) (by decide) (by decide)

/-- `UpdateLockRequest` from `lockRepository.ts`: every field optional;
`seal_date` additionally distinguishes "absent" from an explicit `null`
(`string | null`), hence the nested `Option`. -/
structure UpdateLockRequest where
  lock_name : Option String := none
  album_title : Option String := none
  seal_date : Option (Option String) := none
  user_id : Option Nat := none
  upgraded_storage : Option Bool := none

/-- The dynamic SET-clause of `LockRepository.update`: one row transformer per
provided field, accumulated in source order (`lock_name`, `album_title`,
`seal_date`, `user_id`, `upgraded_storage`). -/
def lockUpdateFields (r : UpdateLockRequest) : List (Lock → Lock) :=
  (match r.lock_name with
    | some v => [fun l => { l with lock_name := v }]
    | none => []) ++
  (match r.album_title with
    | some v => [fun l => { l with album_title := v }]
    | none => []) ++
  (match r.seal_date with
    | some v => [fun l => { l with seal_date := v }]
    | none => []) ++
  (match r.user_id with
    | some v => [fun l => { l with user_id := some v }]
    | none => []) ++
  (match r.upgraded_storage with
    | some v => [fun l => { l with upgraded_storage := v }]
    | none => [])

/-- Apply an assembled SET-clause to one row (the assignments of a SQL
`UPDATE ... SET a = ?, b = ?` applied left to right). -/
def applyFields {α : Type} (fs : List (α → α)) (x : α) : α :=
  fs.foldl (fun a f => f a) x

/-- `LockRepository.update`: build the dynamic SET-clause; with zero fields
throw `"No fields provided for update"` before any write; otherwise run one
keyed `UPDATE` and re-read the row. -/
def lockUpdate (db : List Lock) (id : Nat) (r : UpdateLockRequest) :
    Except String Lock × List Lock :=
  let fs := lockUpdateFields r
  if fs.length = 0 then (Except.error "No fields provided for update", db)
  else
    let db' := db.map (fun l => if l.id == id then applyFields fs l else l)
    match findById db' id with
    | none => (Except.error "Lock not found after update", db')
    | some updatedLock => (Except.ok updatedLock, db')

/-- Row of the `media_objects` table, after `MediaObjectRepository` and the
`MediaObject` entity. -/
structure MediaObject where
  id : Nat
  lock_id : Nat
  cloudflare_id : String
  url : String
  file_name : Option String
  media_type : String
  is_main_picture : Bool
  created_at : String
  display_order : Int
  deriving DecidableEq, Repr

/-- `MediaObjectRepository.findById`. -/
def findMediaById (db : List MediaObject) (id : Nat) : Option MediaObject :=
  db.find? (fun m => m.id == id)

/-- `UpdateMediaObjectRequest` from the media repository. -/
structure UpdateMediaObjectRequest where
  cloudflare_id : Option String := none
  url : Option String := none
  file_name : Option String := none
  media_type : Option String := none
  is_main_picture : Option Bool := none
  display_order : Option Int := none

/-- The dynamic SET-clause of `MediaObjectRepository.update`, in source order
(`cloudflare_id`, `url`, `file_name`, `media_type`, `is_main_picture`,
`display_order`). -/
def mediaUpdateFields (r : UpdateMediaObjectRequest) : List (MediaObject → MediaObject) :=
  (match r.cloudflare_id with
    | some v => [fun m => { m with cloudflare_id := v }]
    | none => []) ++
  (match r.url with
    | some v => [fun m => { m with url := v }]
    | none => []) ++
  (match r.file_name with
    | some v => [fun m => { m with file_name := some v }]
    | none => []) ++
  (match r.media_type with
    | some v => [fun m => { m with media_type := v }]
    | none => []) ++
  (match r.is_main_picture with
    | some v => [fun m => { m with is_main_picture := v }]
    | none => []) ++
  (match r.display_order with
    | some v => [fun m => { m with display_order := v }]
    | none => [])

/-- `MediaObjectRepository.unsetMainPicture`:
`UPDATE media_objects SET is_main_picture = 0 WHERE lock_id = ? AND
is_main_picture = 1`. -/
def unsetMainPicture (db : List MediaObject) (lockId : Nat) : List MediaObject :=
  db.map (fun m =>
    if m.lock_id == lockId && m.is_main_picture then { m with is_main_picture := false } else m)

/-- `MediaObjectRepository.update`: read the current row (a missing id throws
`"Media object not found"`); when the request sets `is_main_picture` to true,
first clear the flag on the whole lock of the *current* row; then run the
dynamic update and re-read. -/
def mediaUpdate (db : List MediaObject) (id : Nat) (r : UpdateMediaObjectRequest) :
    Except String MediaObject × List MediaObject :=
  match findMediaById db id with
  | none => (Except.error "Media object not found", db)
  | some currentMedia =>
    let db1 := if r.is_main_picture == some true
      then unsetMainPicture db currentMedia.lock_id else db
    let fs := mediaUpdateFields r
    if fs.length = 0 then (Except.error "No fields provided for update", db1)
    else
      let db2 := db1.map (fun m => if m.id == id then applyFields fs m else m)
      match findMediaById db2 id with
      | none => (Except.error "Media object not found after update", db2)
      | some updatedMedia => (Except.ok updatedMedia, db2)

/-- `CreateMediaObjectRequest` from the media repository: `lock_id` required,
everything else optional. -/
structure CreateMediaObjectRequest where
  lock_id : Nat
  cloudflare_id : Option String := none
  url : Option String := none
  file_name : Option String := none
  media_type : Option String := none
  is_main_picture : Option Bool := none
  display_order : Option Int := none

/-- JS `value || default` on an optional string: `undefined` and the empty
string are falsy. -/
def jsOrString (a : Option String) (b : String) : String :=
  match a with
  | some s => if s == "" then b else s
  | none => b

/-- JS `value || null` on an optional string. -/
def jsOrNullString (a : Option String) : Option String :=
  match a with
  | some s => if s == "" then none else some s
  | none => none

/-- Largest id present in the media table (0 when empty); a fresh SQLite
rowid is one past it. -/
def maxMediaId (db : List MediaObject) : Nat :=
  db.foldr (fun m acc => max m.id acc) 0

/-- `MediaObjectRepository.create`: apply the model defaults, clear sibling
main pictures when inserting a main picture, insert, re-read by
`last_row_id`. -/
def mediaCreate (db : List MediaObject) (r : CreateMediaObjectRequest) (now : String) :
    Except String MediaObject × List MediaObject :=
  let is_main := r.is_main_picture.getD false
  let db1 := if is_main then unsetMainPicture db r.lock_id else db
  let newId := maxMediaId db1 + 1
  let row : MediaObject :=
    { id := newId
      lock_id := r.lock_id
      cloudflare_id := jsOrString r.cloudflare_id ""
      url := jsOrString r.url ""
      file_name := jsOrNullString r.file_name
      media_type := jsOrString r.media_type ""
      is_main_picture := is_main
      created_at := now
      display_order := r.display_order.getD 0 }
  let db2 := db1 ++ [row]
  match findMediaById db2 newId with
  | none => (Except.error "Failed to retrieve created media object", db2)
  | some newMedia => (Except.ok newMedia, db2)

/-- A concrete media row used for witnesses. -/
def sampleMedia : MediaObject :=
  { id := 1
    lock_id := 7
    cloudflare_id := "cf-1"
    url := "https://img.example.test/a.jpg"
    file_name := some "a.jpg"
    media_type := "image"
    is_main_picture := false
    created_at := "2024-01-01T00:00:00.000Z"
    display_order := 0 }

/-- A second concrete media row on the same lock, currently the main
picture. -/
def sampleMediaMain : MediaObject :=
  { id := 2
    lock_id := 7
    cloudflare_id := "cf-2"
    url := "https://img.example.test/b.jpg"
    file_name := some "b.jpg"
    media_type := "image"
    is_main_picture := true
    created_at := "2024-01-02T00:00:00.000Z"
    display_order := 1 }

/-- C3 counterexample: a media update with zero provided fields at an id that
does not exist fails with `"Media object not found"` (the NotFound error),
not with the InvalidArgument error `"No fields provided for update"` the
claim requires for every id. -/
theorem mediaUpdate_empty_missing_id_counterexample :
    mediaUpdate ([] : List MediaObject) 1 {} =
        (Except.error "Media object not found", ([] : List MediaObject))
      ∧ ("Media object not found" : String) ≠ "No fields provided for update" :=
  ⟨rfl, by decide⟩

/-- C3 (amended): an update with zero recognized fields performs no write and
leaves the table unchanged; for locks it fails with
`"No fields provided for update"` at every id, for media items it fails that
way at every existing id, while a missing media id fails with
`"Media object not found"` (still without writing). -/
theorem empty_update_no_write (db : List Lock) (id : Nat)
    (dbm : List MediaObject) (idm : Nat) (m : MediaObject)
    (hm : findMediaById dbm idm = some m)
    (dbm2 : List MediaObject) (idm2 : Nat)
    (hnone : findMediaById dbm2 idm2 = none) :
    lockUpdate db id {} = (Except.error "No fields provided for update", db)
      ∧ mediaUpdate dbm idm {} = (Except.error "No fields provided for update", dbm)
      ∧ mediaUpdate dbm2 idm2 {} = (Except.error "Media object not found", dbm2) := by
  refine ⟨rfl, ?_, ?_⟩
  · simp only [mediaUpdate, hm]
    rfl
  · simp only [mediaUpdate, hnone]

/-- Closed witness for the amended C3 at concrete one-row tables. -/
theorem empty_update_no_write_witness :
    lockUpdate [freshLock] 1 {} = (Except.error "No fields provided for update", [freshLock])
      ∧ mediaUpdate [sampleMedia] 1 {} =
          (Except.error "No fields provided for update", [sampleMedia])
      ∧ mediaUpdate [sampleMedia] 5 {} = (Except.error "Media object not found", [sampleMedia]) :=
  empty_update_no_write [freshLock] 1 [sampleMedia] 1 sampleMedia (by decide)
    [sampleMedia] 5 (by decide)

/-- Per-field description of one assembled lock SET-clause application:
provided fields are overwritten, everything else is untouched. -/
theorem applyLockFields_spec (r : UpdateLockRequest) (l : Lock) :
    (applyFields (lockUpdateFields r) l).lock_name = r.lock_name.getD l.lock_name
      ∧ (applyFields (lockUpdateFields r) l).album_title = r.album_title.getD l.album_title
      ∧ (applyFields (lockUpdateFields r) l).seal_date = r.seal_date.getD l.seal_date
      ∧ (applyFields (lockUpdateFields r) l).user_id =
          (match r.user_id with | some v => some v | none => l.user_id)
      ∧ (applyFields (lockUpdateFields r) l).upgraded_storage =
          r.upgraded_storage.getD l.upgraded_storage
      ∧ (applyFields (lockUpdateFields r) l).id = l.id
      ∧ (applyFields (lockUpdateFields r) l).scan_count = l.scan_count
      ∧ (applyFields (lockUpdateFields r) l).last_scan_milestone = l.last_scan_milestone
      ∧ (applyFields (lockUpdateFields r) l).created_at = l.created_at := by
  obtain ⟨a, b, c, d, e⟩ := r
  cases a <;> cases b <;> cases c <;> cases d <;> cases e <;>
    simp [lockUpdateFields, applyFields]

/-- Per-field description of one assembled media SET-clause application. -/
theorem applyMediaFields_spec (r : UpdateMediaObjectRequest) (m : MediaObject) :
    (applyFields (mediaUpdateFields r) m).cloudflare_id = r.cloudflare_id.getD m.cloudflare_id
      ∧ (applyFields (mediaUpdateFields r) m).url = r.url.getD m.url
      ∧ (applyFields (mediaUpdateFields r) m).file_name =
          (match r.file_name with | some v => some v | none => m.file_name)
      ∧ (applyFields (mediaUpdateFields r) m).media_type = r.media_type.getD m.media_type
      ∧ (applyFields (mediaUpdateFields r) m).is_main_picture =
          r.is_main_picture.getD m.is_main_picture
      ∧ (applyFields (mediaUpdateFields r) m).display_order = r.display_order.getD m.display_order
      ∧ (applyFields (mediaUpdateFields r) m).id = m.id
      ∧ (applyFields (mediaUpdateFields r) m).lock_id = m.lock_id
      ∧ (applyFields (mediaUpdateFields r) m).created_at = m.created_at := by
  obtain ⟨a, b, c, d, e, f⟩ := r
  cases a <;> cases b <;> cases c <;> cases d <;> cases e <;> cases f <;>
    simp [mediaUpdateFields, applyFields]

/-- `find?` by id commutes with an id-preserving row transformation. -/
theorem findMediaById_map (db : List MediaObject) (id : Nat) (g : MediaObject → MediaObject)
    (hg : ∀ m, (g m).id = m.id) :
    findMediaById (db.map g) id = (findMediaById db id).map g := by
  unfold findMediaById
  exact find?_map_of_pred _ _ (fun a => by simp [hg]) db

/-- Reading back after a keyed media `UPDATE` returns the transformed row. -/
theorem findMediaById_map_keyed (db : List MediaObject) (id : Nat)
    (f : MediaObject → MediaObject) (hf : ∀ x, (f x).id = x.id)
    (m : MediaObject) (hm : findMediaById db id = some m) :
    findMediaById (db.map (fun x => if x.id == id then f x else x)) id = some (f m) := by
  have hid : (m.id == id) = true := by
    have h' : db.find? (fun x => x.id == id) = some m := hm
    have h2 := List.find?_some h'
    simpa using h2
  rw [findMediaById_map db id _
      (fun x => by by_cases hx : (x.id == id) = true <;> simp [hx, hf]),
    hm, Option.map_some', if_pos hid]

/-- Success path of `lockUpdate` on an existing row: result and read-back. -/
theorem lockUpdate_ok (db : List Lock) (id : Nat) (l : Lock) (r : UpdateLockRequest)
    (hl : findById db id = some l) (hr : lockUpdateFields r ≠ []) :
    (lockUpdate db id r).1 = Except.ok (applyFields (lockUpdateFields r) l)
      ∧ findById (lockUpdate db id r).2 id = some (applyFields (lockUpdateFields r) l) := by
  have hid : (l.id == id) = true := by
    have h' : db.find? (fun x => x.id == id) = some l := hl
    have h2 := List.find?_some h'
    simpa using h2
  have hlen : ¬ (lockUpdateFields r).length = 0 := by
    simpa [List.length_eq_zero] using hr
  have hmap := findById_map_update db id (applyFields (lockUpdateFields r))
    (fun x => (applyLockFields_spec r x).2.2.2.2.2.1)
  rw [hl, Option.map_some', if_pos hid] at hmap
  constructor
  · simp only [lockUpdate, if_neg hlen]
    rw [hmap]
  · simp only [lockUpdate, if_neg hlen]
    rw [hmap]
    exact hmap

/-- Success path of `mediaUpdate` on an existing row: the persisted row is the
SET-clause applied to the current row, with the main-picture flag first
cleared when the request is about to set it. -/
theorem mediaUpdate_ok (db : List MediaObject) (id : Nat) (m : MediaObject)
    (r : UpdateMediaObjectRequest) (hm : findMediaById db id = some m)
    (hr : mediaUpdateFields r ≠ []) :
    (mediaUpdate db id r).1 = Except.ok (applyFields (mediaUpdateFields r)
        (if r.is_main_picture == some true && m.is_main_picture
          then { m with is_main_picture := false } else m))
      ∧ findMediaById (mediaUpdate db id r).2 id = some (applyFields (mediaUpdateFields r)
        (if r.is_main_picture == some true && m.is_main_picture
          then { m with is_main_picture := false } else m)) := by
  have hlen : ¬ (mediaUpdateFields r).length = 0 := by
    simpa [List.length_eq_zero] using hr
  have hfapp : ∀ x, (applyFields (mediaUpdateFields r) x).id = x.id :=
    fun x => (applyMediaFields_spec r x).2.2.2.2.2.2.1
  cases hmain : (r.is_main_picture == some true) with
  | false =>
    simp only [Bool.false_and, Bool.false_eq_true, if_false]
    have hread := findMediaById_map_keyed db id (applyFields (mediaUpdateFields r)) hfapp m hm
    constructor
    · simp only [mediaUpdate, hm, hmain, Bool.false_eq_true, if_false, if_neg hlen]
      rw [hread]
    · simp only [mediaUpdate, hm, hmain, Bool.false_eq_true, if_false, if_neg hlen]
      rw [hread]
      exact hread
  | true =>
    simp only [Bool.true_and]
    have hunset : findMediaById (unsetMainPicture db m.lock_id) id = some
        (if m.is_main_picture = true then { m with is_main_picture := false } else m) := by
      unfold unsetMainPicture
      rw [findMediaById_map db id _
          (fun x => by by_cases hx : (x.lock_id == m.lock_id && x.is_main_picture) = true <;>
            simp [hx]),
        hm, Option.map_some']
      simp
    have hread := findMediaById_map_keyed (unsetMainPicture db m.lock_id) id
      (applyFields (mediaUpdateFields r)) hfapp _ hunset
    constructor
    · simp only [mediaUpdate, hm, hmain, eq_self_iff_true, if_true, if_neg hlen]
      rw [hread]
    · simp only [mediaUpdate, hm, hmain, eq_self_iff_true, if_true, if_neg hlen]
      rw [hread]
      exact hread

/-- C4: updating an existing entity (lock, media item) with a non-empty field
mapping and reading it back yields exactly the provided values on the named
fields, and every field not named in the mapping keeps its previous value. -/
theorem update_readback_frame (db : List Lock) (id : Nat) (l : Lock) (r : UpdateLockRequest)
    (hl : findById db id = some l) (hr : lockUpdateFields r ≠ [])
    (dbm : List MediaObject) (idm : Nat) (m : MediaObject) (rm : UpdateMediaObjectRequest)
    (hm : findMediaById dbm idm = some m) (hrm : mediaUpdateFields rm ≠ []) :
    (∃ l', (lockUpdate db id r).1 = Except.ok l'
      ∧ findById (lockUpdate db id r).2 id = some l'
      ∧ l'.lock_name = r.lock_name.getD l.lock_name
      ∧ l'.album_title = r.album_title.getD l.album_title
      ∧ l'.seal_date = r.seal_date.getD l.seal_date
      ∧ l'.user_id = (match r.user_id with | some v => some v | none => l.user_id)
      ∧ l'.upgraded_storage = r.upgraded_storage.getD l.upgraded_storage
      ∧ l'.id = l.id ∧ l'.scan_count = l.scan_count
      ∧ l'.last_scan_milestone = l.last_scan_milestone ∧ l'.created_at = l.created_at)
    ∧ (∃ m', (mediaUpdate dbm idm rm).1 = Except.ok m'
      ∧ findMediaById (mediaUpdate dbm idm rm).2 idm = some m'
      ∧ m'.cloudflare_id = rm.cloudflare_id.getD m.cloudflare_id
      ∧ m'.url = rm.url.getD m.url
      ∧ m'.file_name = (match rm.file_name with | some v => some v | none => m.file_name)
      ∧ m'.media_type = rm.media_type.getD m.media_type
      ∧ m'.is_main_picture = rm.is_main_picture.getD m.is_main_picture
      ∧ m'.display_order = rm.display_order.getD m.display_order
      ∧ m'.id = m.id ∧ m'.lock_id = m.lock_id ∧ m'.created_at = m.created_at) := by
  constructor
  · obtain ⟨hl1, hl2⟩ := lockUpdate_ok db id l r hl hr
    obtain ⟨e1, e2, e3, e4, e5, e6, e7, e8, e9⟩ := applyLockFields_spec r l
    exact ⟨_, hl1, hl2, e1, e2, e3, e4, e5, e6, e7, e8, e9⟩
  · obtain ⟨hm1, hm2⟩ := mediaUpdate_ok dbm idm m rm hm hrm
    set row := (if rm.is_main_picture == some true && m.is_main_picture
      then { m with is_main_picture := false } else m) with hrowdef
    have hrowf : row.cloudflare_id = m.cloudflare_id ∧ row.url = m.url
        ∧ row.file_name = m.file_name ∧ row.media_type = m.media_type
        ∧ row.display_order = m.display_order ∧ row.id = m.id
        ∧ row.lock_id = m.lock_id ∧ row.created_at = m.created_at := by
      rw [hrowdef]
      by_cases hc : (rm.is_main_picture == some true && m.is_main_picture) = true <;> simp [hc]
    obtain ⟨f1, f2, f3, f4, f5, f6, f7, f8⟩ := hrowf
    obtain ⟨a1, a2, a3, a4, a5, a6, a7, a8, a9⟩ := applyMediaFields_spec rm row
    have hmain_eq : (applyFields (mediaUpdateFields rm) row).is_main_picture =
        rm.is_main_picture.getD m.is_main_picture := by
      rw [a5, hrowdef]
      cases rm.is_main_picture with
      | none => simp
      | some v => simp
    refine ⟨_, hm1, hm2, ?_, ?_, ?_, ?_, hmain_eq, ?_, ?_, ?_, ?_⟩
    · rw [a1, f1]
    · rw [a2, f2]
    · rw [a3, f3]
    · rw [a4, f4]
    · rw [a6, f5]
    · rw [a7, f6]
    · rw [a8, f7]
    · rw [a9, f8]

/-- Closed witness for C4: rename a lock and change a media url on concrete
one-row tables. -/
theorem update_readback_frame_witness :
    (∃ l', (lockUpdate [freshLock] 1 { lock_name := some "Our Lock" }).1 = Except.ok l'
      ∧ findById (lockUpdate [freshLock] 1 { lock_name := some "Our Lock" }).2 1 = some l'
      ∧ l'.lock_name = (some "Our Lock").getD freshLock.lock_name
      ∧ l'.album_title = (none : Option String).getD freshLock.album_title
      ∧ l'.seal_date = (none : Option (Option String)).getD freshLock.seal_date
      ∧ l'.user_id = freshLock.user_id
      ∧ l'.upgraded_storage = (none : Option Bool).getD freshLock.upgraded_storage
      ∧ l'.id = freshLock.id ∧ l'.scan_count = freshLock.scan_count
      ∧ l'.last_scan_milestone = freshLock.last_scan_milestone
      ∧ l'.created_at = freshLock.created_at)
    ∧ (∃ m', (mediaUpdate [sampleMedia] 1 { url := some "https://img.example.test/c.jpg" }).1
          = Except.ok m'
      ∧ findMediaById
          (mediaUpdate [sampleMedia] 1 { url := some "https://img.example.test/c.jpg" }).2 1
          = some m'
      ∧ m'.cloudflare_id = (none : Option String).getD sampleMedia.cloudflare_id
      ∧ m'.url = (some "https://img.example.test/c.jpg").getD sampleMedia.url
      ∧ m'.file_name = sampleMedia.file_name
      ∧ m'.media_type = (none : Option String).getD sampleMedia.media_type
      ∧ m'.is_main_picture = (none : Option Bool).getD sampleMedia.is_main_picture
      ∧ m'.display_order = (none : Option Int).getD sampleMedia.display_order
      ∧ m'.id = sampleMedia.id ∧ m'.lock_id = sampleMedia.lock_id
      ∧ m'.created_at = sampleMedia.created_at) :=
  update_readback_frame [freshLock] 1 freshLock { lock_name := some "Our Lock" }
    (by decide) (List.cons_ne_nil _ _)
    [sampleMedia] 1 sampleMedia { url := some "https://img.example.test/c.jpg" }
    (by decide) (List.cons_ne_nil _ _)

/-- After clearing the main-picture flag over a lock, no row of that lock
carries the flag. -/
theorem unset_mem_flag (db : List MediaObject) (L : Nat) (b : MediaObject)
    (hb : b ∈ unsetMainPicture db L) (hbl : b.lock_id = L) :
    b.is_main_picture = false := by
  obtain ⟨a, ha, hab⟩ := List.mem_map.1 hb
  subst hab
  by_cases hm2 : a.is_main_picture = true
  · have hlockpres : (if a.lock_id == L && a.is_main_picture then
        { a with is_main_picture := false } else a).lock_id = a.lock_id := by
      by_cases hc : (a.lock_id == L && a.is_main_picture) = true <;> simp [hc]
    have hal : (a.lock_id == L) = true := by
      rw [beq_iff_eq, ← hlockpres]
      exact hbl
    have hc : (a.lock_id == L && a.is_main_picture) = true := by rw [hal, hm2]; rfl
    simp [hc]
  · have ha2 : a.is_main_picture = false := by simpa using hm2
    simp [ha2]

/-- Every media id is bounded by `maxMediaId`. -/
theorem mem_id_le_maxMediaId (db : List MediaObject) (a : MediaObject) (ha : a ∈ db) :
    a.id ≤ maxMediaId db := by
  induction db with
  | nil => cases ha
  | cons x xs ih =>
    rcases List.mem_cons.1 ha with h | h
    · subst h; simp [maxMediaId]
    · calc a.id ≤ maxMediaId xs := ih h
        _ ≤ maxMediaId (x :: xs) := by simp [maxMediaId]

/-- `unsetMainPicture` does not change ids, hence not the maximum id. -/
theorem maxMediaId_unset (db : List MediaObject) (L : Nat) :
    maxMediaId (unsetMainPicture db L) = maxMediaId db := by
  induction db with
  | nil => rfl
  | cons x xs ih =>
    have hx : (if x.lock_id == L && x.is_main_picture then
        { x with is_main_picture := false } else x).id = x.id := by
      by_cases hc : (x.lock_id == L && x.is_main_picture) = true <;> simp [hc]
    simp only [unsetMainPicture, List.map_cons, maxMediaId, List.foldr_cons, hx]
    simp only [unsetMainPicture, maxMediaId] at ih
    rw [ih]

/-- The row inserted by `mediaCreate` when the request marks it as the main
picture. -/
def mainCreatedRow (db : List MediaObject) (rc : CreateMediaObjectRequest) (now : String) :
    MediaObject :=
  { id := maxMediaId db + 1
    lock_id := rc.lock_id
    cloudflare_id := jsOrString rc.cloudflare_id ""
    url := jsOrString rc.url ""
    file_name := jsOrNullString rc.file_name
    media_type := jsOrString rc.media_type ""
    is_main_picture := true
    created_at := now
    display_order := rc.display_order.getD 0 }

/-- Closed form of `mediaCreate` when the request sets the main-picture
flag. -/
theorem mediaCreate_main_eq (db : List MediaObject) (rc : CreateMediaObjectRequest)
    (now : String) (htc : rc.is_main_picture = some true) :
    mediaCreate db rc now = (Except.ok (mainCreatedRow db rc now),
      unsetMainPicture db rc.lock_id ++ [mainCreatedRow db rc now]) := by
  have hism : (rc.is_main_picture.getD false) = true := by rw [htc]; rfl
  have hmax : maxMediaId (unsetMainPicture db rc.lock_id) = maxMediaId db :=
    maxMediaId_unset db rc.lock_id
  have h1 : (unsetMainPicture db rc.lock_id).find?
      (fun x => x.id == maxMediaId db + 1) = none := by
    rw [List.find?_eq_none]
    intro x hx
    have hle : x.id ≤ maxMediaId db := by
      rw [← hmax]
      exact mem_id_le_maxMediaId _ x hx
    simp only [beq_iff_eq]
    omega
  have hfind : findMediaById (unsetMainPicture db rc.lock_id ++ [mainCreatedRow db rc now])
      (maxMediaId db + 1) = some (mainCreatedRow db rc now) := by
    unfold findMediaById
    rw [List.find?_append, h1]
    simp [mainCreatedRow]
  simp only [mediaCreate, hism, if_true, hmax]
  rw [show (unsetMainPicture db rc.lock_id ++
      [({ id := maxMediaId db + 1
          lock_id := rc.lock_id
          cloudflare_id := jsOrString rc.cloudflare_id ""
          url := jsOrString rc.url ""
          file_name := jsOrNullString rc.file_name
          media_type := jsOrString rc.media_type ""
          is_main_picture := true
          created_at := now
          display_order := rc.display_order.getD 0 } : MediaObject)]) =
    unsetMainPicture db rc.lock_id ++ [mainCreatedRow db rc now] from rfl]
  rw [hfind]

/-- State after a main-picture-setting `mediaUpdate`: sibling flags cleared
over the current row's lock, then the keyed update applied. -/
theorem mediaUpdate_state_main (db : List MediaObject) (id : Nat) (m : MediaObject)
    (rm : UpdateMediaObjectRequest) (hm : findMediaById db id = some m)
    (hbeq : (rm.is_main_picture == some true) = true) (hlen : mediaUpdateFields rm ≠ []) :
    (mediaUpdate db id rm).2 = (unsetMainPicture db m.lock_id).map
      (fun x => if x.id == id then applyFields (mediaUpdateFields rm) x else x) := by
  have hlen' : ¬ (mediaUpdateFields rm).length = 0 := by
    simpa [List.length_eq_zero] using hlen
  simp only [mediaUpdate, hm, hbeq, eq_self_iff_true, if_true, if_neg hlen']
  split <;> rfl

/-- C5: any create or update that sets the main-picture flag on media item A
leaves every other media item of A's (current) lock with the flag cleared;
the item itself ends up flagged. -/
theorem main_picture_exclusive
    (dbm : List MediaObject) (idm : Nat) (m : MediaObject) (rm : UpdateMediaObjectRequest)
    (hm : findMediaById dbm idm = some m) (ht : rm.is_main_picture = some true)
    (dbc : List MediaObject) (rc : CreateMediaObjectRequest) (now : String)
    (htc : rc.is_main_picture = some true) :
    (∃ m', (mediaUpdate dbm idm rm).1 = Except.ok m'
      ∧ m'.id = m.id ∧ m'.lock_id = m.lock_id ∧ m'.is_main_picture = true
      ∧ ∀ b ∈ (mediaUpdate dbm idm rm).2, b.id ≠ m.id → b.lock_id = m.lock_id →
          b.is_main_picture = false)
    ∧ (∃ m', (mediaCreate dbc rc now).1 = Except.ok m'
      ∧ m'.lock_id = rc.lock_id ∧ m'.is_main_picture = true
      ∧ ∀ b ∈ (mediaCreate dbc rc now).2, b.id ≠ m'.id → b.lock_id = rc.lock_id →
          b.is_main_picture = false) := by
  constructor
  · have hbeq : (rm.is_main_picture == some true) = true := by rw [ht]; rfl
    have hrm : mediaUpdateFields rm ≠ [] := by
      simp [mediaUpdateFields, ht]
    have hfapp : ∀ x, (applyFields (mediaUpdateFields rm) x).id = x.id :=
      fun x => (applyMediaFields_spec rm x).2.2.2.2.2.2.1
    have hmid : m.id = idm := by
      have h' : dbm.find? (fun x => x.id == idm) = some m := hm
      have h2 := List.find?_some h'
      simpa using h2
    obtain ⟨hm1, -⟩ := mediaUpdate_ok dbm idm m rm hm hrm
    obtain ⟨-, -, -, -, a5, -, a7, a8, -⟩ := applyMediaFields_spec rm
      (if rm.is_main_picture == some true && m.is_main_picture
        then { m with is_main_picture := false } else m)
    have hrowid : (if rm.is_main_picture == some true && m.is_main_picture
        then { m with is_main_picture := false } else m).id = m.id := by
      by_cases hc : (rm.is_main_picture == some true && m.is_main_picture) = true <;> simp [hc]
    have hrowlock : (if rm.is_main_picture == some true && m.is_main_picture
        then { m with is_main_picture := false } else m).lock_id = m.lock_id := by
      by_cases hc : (rm.is_main_picture == some true && m.is_main_picture) = true <;> simp [hc]
    refine ⟨_, hm1, by rw [a7, hrowid], by rw [a8, hrowlock], by rw [a5, ht]; rfl, ?_⟩
    intro b hb hbid hbl
    rw [mediaUpdate_state_main dbm idm m rm hm hbeq hrm] at hb
    rcases List.mem_map.1 hb with ⟨x, hx, hxb⟩
    subst hxb
    by_cases hxid : (x.id == idm) = true
    · exfalso
      apply hbid
      have hbx : (if (x.id == idm) = true then applyFields (mediaUpdateFields rm) x else x).id
          = x.id := by simp [hxid, hfapp]
      rw [hbx, hmid]
      simpa using hxid
    · have hbx : (if (x.id == idm) = true then applyFields (mediaUpdateFields rm) x else x)
          = x := if_neg hxid
      rw [hbx] at hbl ⊢
      exact unset_mem_flag dbm m.lock_id x hx hbl
  · rw [mediaCreate_main_eq dbc rc now htc]
    refine ⟨mainCreatedRow dbc rc now, rfl, rfl, rfl, ?_⟩
    intro b hb hbid hbl
    rcases List.mem_append.1 hb with h | h
    · exact unset_mem_flag dbc rc.lock_id b h hbl
    · exfalso
      apply hbid
      rw [List.mem_singleton.1 h]

/-- Closed witness for C5: flag media item 1 as main while item 2 of the same
lock currently holds the flag, and create a new flagged item next to an
existing flagged one. -/
theorem main_picture_exclusive_witness :
    (∃ m', (mediaUpdate [sampleMedia, sampleMediaMain] 1
          { is_main_picture := some true }).1 = Except.ok m'
      ∧ m'.id = sampleMedia.id ∧ m'.lock_id = sampleMedia.lock_id ∧ m'.is_main_picture = true
      ∧ ∀ b ∈ (mediaUpdate [sampleMedia, sampleMediaMain] 1
            { is_main_picture := some true }).2,
          b.id ≠ sampleMedia.id → b.lock_id = sampleMedia.lock_id → b.is_main_picture = false)
    ∧ (∃ m', (mediaCreate [sampleMediaMain]
          { lock_id := 7, is_main_picture := some true } "2024-03-01T00:00:00.000Z").1
          = Except.ok m'
      ∧ m'.lock_id = 7 ∧ m'.is_main_picture = true
      ∧ ∀ b ∈ (mediaCreate [sampleMediaMain]
            { lock_id := 7, is_main_picture := some true } "2024-03-01T00:00:00.000Z").2,
          b.id ≠ m'.id → b.lock_id = 7 → b.is_main_picture = false) :=
  main_picture_exclusive [sampleMedia, sampleMediaMain] 1 sampleMedia
    { is_main_picture := some true } (by decide) rfl
    [sampleMediaMain] { lock_id := 7, is_main_picture := some true }
    "2024-03-01T00:00:00.000Z" rfl

/-- Row of the `users` table, after the `User` entity in `types.ts`. -/
structure User where
  id : Nat
  name : Option String
  email : Option String
  phone_number : Option String
  auth_provider : String
  provider_id : Option String
  email_verified : Bool
  phone_verified : Bool
  created_at : String
  last_login_at : Option String
  has_premium_storage : Bool
  deriving DecidableEq, Repr

/-- `UserRepository.findById`. -/
def findUserById (users : List User) (id : Nat) : Option User :=
  users.find? (fun u => u.id == id)

/-- `UserRepository.delete`: `DELETE FROM users WHERE id = ?`. -/
def userDelete (users : List User) (id : Nat) : List User :=
  users.filter (fun u => !(u.id == id))

/-- `LockRepository.clearUserAssociation`:
`UPDATE locks SET user_id = NULL WHERE user_id = ?`. -/
def clearUserAssociation (locks : List Lock) (userId : Nat) : List Lock :=
  locks.map (fun l => if l.user_id == some userId then { l with user_id := none } else l)

/-- `LockRepository.findAllByUserId`: `SELECT * FROM locks WHERE user_id = ?`. -/
def lockFindAllByUserId (locks : List Lock) (userId : Nat) : List Lock :=
  locks.filter (fun l => l.user_id == some userId)

/-- `MediaObjectRepository.deleteByLockId`:
`DELETE FROM media_objects WHERE lock_id = ?`. -/
def deleteMediaByLockId (media : List MediaObject) (lockId : Nat) : List MediaObject :=
  media.filter (fun mo => !(mo.lock_id == lockId))

/-- Combined table state touched by the user-deletion route. -/
structure WorkerState where
  users : List User
  locks : List Lock
  media : List MediaObject
  deriving DecidableEq, Repr

/-- Outcome of `DELETE /users/:userId`. -/
inductive DeleteUserResult where
  | invalidId
  | userNotFound
  | deleted (deletedMedia : Bool) (message : String)
  deriving DecidableEq, Repr

/-- The `users.delete('/:userId')` handler: validate the id, look up the user,
optionally delete the media of every owned lock, always detach owned locks,
then delete the user. -/
def deleteUserRoute (s : WorkerState) (userId : Nat) (deleteMedia : Bool) :
    DeleteUserResult × WorkerState :=
  if userId = 0 then (DeleteUserResult.invalidId, s)
  else
    match findUserById s.users userId with
    | none => (DeleteUserResult.userNotFound, s)
    | some _ =>
      let media' := if deleteMedia then
          (lockFindAllByUserId s.locks userId).foldl
            (fun acc lock => deleteMediaByLockId acc lock.id) s.media
        else s.media
      let locks' := clearUserAssociation s.locks userId
      let users' := userDelete s.users userId
      (DeleteUserResult.deleted deleteMedia
        (if deleteMedia then "User and associated media deleted successfully"
          else "User deleted successfully"),
       { users := users', locks := locks', media := media' })

/-- Membership after deleting the media of a list of locks one by one. -/
theorem foldl_deleteMedia_mem (locks : List Lock) (media : List MediaObject)
    (mo : MediaObject) :
    mo ∈ locks.foldl (fun acc lock => deleteMediaByLockId acc lock.id) media ↔
      (mo ∈ media ∧ ∀ lk ∈ locks, mo.lock_id ≠ lk.id) := by
  induction locks generalizing media with
  | nil => simp
  | cons x xs ih =>
    rw [List.foldl_cons, ih]
    simp only [deleteMediaByLockId, List.mem_filter]
    constructor
    · rintro ⟨⟨h1, h2⟩, h3⟩
      refine ⟨h1, ?_⟩
      intro lk hlk
      rcases List.mem_cons.1 hlk with hlk | hlk
      · subst hlk; simpa using h2
      · exact h3 lk hlk
    · rintro ⟨h1, h2⟩
      exact ⟨⟨h1, by simpa using h2 x (List.mem_cons_self x xs)⟩,
        fun lk hlk => h2 lk (List.mem_cons_of_mem x hlk)⟩

/-- C6: deleting an existing user deletes (with `deleteMedia = true`) exactly
the media items belonging to locks owned by that user, always sets the owner
reference to `NULL` on all owned locks while keeping the locks, deletes the
user row, and leaves media untouched when `deleteMedia = false`. -/
theorem delete_user_route_spec (s : WorkerState) (userId : Nat) (deleteMedia : Bool)
    (u : User) (hpos : userId ≠ 0) (hu : findUserById s.users userId = some u) :
    (deleteUserRoute s userId deleteMedia).1 = DeleteUserResult.deleted deleteMedia
        (if deleteMedia then "User and associated media deleted successfully"
          else "User deleted successfully")
      ∧ (deleteUserRoute s userId deleteMedia).2.users
          = s.users.filter (fun v => !(v.id == userId))
      ∧ (deleteUserRoute s userId deleteMedia).2.locks
          = s.locks.map (fun l =>
              if l.user_id == some userId then { l with user_id := none } else l)
      ∧ (deleteMedia = true → ∀ mo, mo ∈ (deleteUserRoute s userId deleteMedia).2.media ↔
          (mo ∈ s.media ∧ ∀ lk ∈ s.locks, lk.user_id = some userId → mo.lock_id ≠ lk.id))
      ∧ (deleteMedia = false → (deleteUserRoute s userId deleteMedia).2.media = s.media) := by
  have hroute : deleteUserRoute s userId deleteMedia = (DeleteUserResult.deleted deleteMedia
      (if deleteMedia then "User and associated media deleted successfully"
        else "User deleted successfully"),
      { users := userDelete s.users userId
        locks := clearUserAssociation s.locks userId
        media := if deleteMedia then
            (lockFindAllByUserId s.locks userId).foldl
              (fun acc lock => deleteMediaByLockId acc lock.id) s.media
          else s.media }) := by
    simp only [deleteUserRoute, if_neg hpos, hu]
  rw [hroute]
  refine ⟨rfl, rfl, rfl, ?_, ?_⟩
  · intro hdel mo
    simp only [hdel, if_true]
    rw [foldl_deleteMedia_mem]
    constructor
    · rintro ⟨h1, h2⟩
      refine ⟨h1, ?_⟩
      intro lk hlk howner
      exact h2 lk (List.mem_filter.2 ⟨hlk, by simp [howner]⟩)
    · rintro ⟨h1, h2⟩
      refine ⟨h1, ?_⟩
      intro lk hlk
      have hmem := List.mem_filter.1 hlk
      exact h2 lk hmem.1 (by simpa using hmem.2)
  · intro hdel
    simp [hdel]

/-- A user who owns lock 7, the lock itself, and its three media items:
concrete state for the C6 witness. -/
def sampleUser : User :=
  { id := 42
    name := some "Sam"
    email := some "sam@example.test"
    phone_number := none
    auth_provider := "google"
    provider_id := some "g-42"
    email_verified := true
    phone_verified := false
    created_at := "2024-01-01T00:00:00.000Z"
    last_login_at := none
    has_premium_storage := false }

/-- Lock 7 owned by user 42 for the C6 witness. -/
def lock7 : Lock :=
  { freshLock with id := 7, user_id := some 42 }

/-- Concrete state: user 42 owns lock 7 carrying three media items. -/
def sampleState : WorkerState :=
  { users := [sampleUser]
    locks := [lock7]
    media := [{ sampleMedia with id := 1 }, { sampleMedia with id := 2 },
      { sampleMedia with id := 3 }] }

/-- Closed witness for C6 at the spec's scenario state. -/
theorem delete_user_route_spec_witness :
    (deleteUserRoute sampleState 42 true).1 = DeleteUserResult.deleted true
        (if true then "User and associated media deleted successfully"
          else "User deleted successfully")
      ∧ (deleteUserRoute sampleState 42 true).2.users
          = sampleState.users.filter (fun v => !(v.id == 42))
      ∧ (deleteUserRoute sampleState 42 true).2.locks
          = sampleState.locks.map (fun l =>
              if l.user_id == some 42 then { l with user_id := none } else l)
      ∧ (true = true → ∀ mo, mo ∈ (deleteUserRoute sampleState 42 true).2.media ↔
          (mo ∈ sampleState.media ∧
            ∀ lk ∈ sampleState.locks, lk.user_id = some 42 → mo.lock_id ≠ lk.id))
      ∧ (true = false → (deleteUserRoute sampleState 42 true).2.media = sampleState.media) :=
  delete_user_route_spec sampleState 42 true sampleUser (by decide) (by decide)

/-- `CreateLockRequest` from `lockRepository.ts`. -/
structure CreateLockRequest where
  lock_name : Option String := none
  album_title : Option String := none
  seal_date : Option String := none
  user_id : Option Nat := none

/-- JS `value || null` on an optional number: `undefined` and 0 are falsy. -/
def jsOrNullNat (a : Option Nat) : Option Nat :=
  match a with
  | some v => if v = 0 then none else some v
  | none => none

/-- Largest lock id present (0 when empty); a fresh SQLite rowid is one past
it. -/
def maxLockId (db : List Lock) : Nat :=
  db.foldr (fun l acc => max l.id acc) 0

/-- `LockRepository.getLastLock`: `SELECT * FROM locks ORDER BY id DESC
LIMIT 1`, i.e. the row with the largest id. -/
def getLastLock (db : List Lock) : Option Lock :=
  db.foldl (fun acc l => match acc with
    | none => some l
    | some b => if l.id > b.id then some l else some b) none

/-- `LockRepository.create`: apply the model defaults, insert (columns
`last_scan_milestone` and `upgraded_storage` are not in the INSERT list and
keep their DB defaults), then re-read by `last_row_id`. -/
def lockCreate (db : List Lock) (r : CreateLockRequest) (now : String) :
    Except String Lock × List Lock :=
  let newId := maxLockId db + 1
  let row : Lock :=
    { id := newId
      lock_name := jsOrString r.lock_name "Memory Lock"
      album_title := jsOrString r.album_title "Wonderful Memories"
      seal_date := jsOrNullString r.seal_date
      scan_count := 0
      last_scan_milestone := none
      created_at := now
      user_id := jsOrNullNat r.user_id
      upgraded_storage := false }
  let db' := db ++ [row]
  match findById db' newId with
  | none => (Except.error "Failed to retrieve created lock", db')
  | some newLock => (Except.ok newLock, db')

/-- Response envelope of the bulk-creation route. -/
structure BulkResponse where
  success : Bool
  message : String
  deriving DecidableEq, Repr

/-- The creation loop of `POST /locks/create/:totalLocks`: one
`lockRepo.create` call per item with the fixed placeholder payload, each
wrapped in try/catch so a failed insert (modelled by the `fails` oracle) is
skipped and the loop continues.  Returns the table, the number of created
locks and the number of attempted creations.  (The source batches items in
groups of 100 purely for pacing; the creations stay sequential.) -/
def bulkGo (fails : Nat → Bool) (now : String) :
    List Nat → List Lock → Nat → Nat → List Lock × Nat × Nat
  | [], db, created, attempted => (db, created, attempted)
  | i :: rest, db, created, attempted =>
    if fails i then bulkGo fails now rest db created (attempted + 1)
    else bulkGo fails now rest
      (lockCreate db { lock_name := some "Memory Lock", album_title := some "Romeo & Juliet" }
        now).2
      (created + 1) (attempted + 1)

/-- `POST /locks/create/:totalLocks`: validate the count, find the next id
after the current maximum, run the creation loop, and report how many locks
were created together with their id range. -/
def bulkCreateLocks (fails : Nat → Bool) (db : List Lock) (now : String) (totalLocks : Nat) :
    BulkResponse × List Lock × Nat × Nat :=
  if totalLocks = 0 ∨ totalLocks > 10000 then
    ({ success := false
       message := "Invalid totalLocks parameter. Must be between 1 and 10000." }, db, 0, 0)
  else
    let startId := match getLastLock db with
      | some lastLock => lastLock.id + 1
      | none => 1
    let r := bulkGo fails now (List.range totalLocks) db 0 0
    ({ success := true
       message := "Successfully created " ++ toString r.2.1 ++ " locks (" ++ toString startId
         ++ " to " ++ toString (startId + r.2.1 - 1) ++ ")" },
     r.1, r.2.1, r.2.2)

/-- The placeholder row the bulk route inserts at a given id. -/
def placeholderRow (id : Nat) (now : String) : Lock :=
  { id := id
    lock_name := "Memory Lock"
    album_title := "Romeo & Juliet"
    seal_date := none
    scan_count := 0
    last_scan_milestone := none
    created_at := now
    user_id := none
    upgraded_storage := false }

/-- Folding the id maximum from an arbitrary seed. -/
theorem foldr_maxId_init (db : List Lock) (b : Nat) :
    db.foldr (fun l acc => max l.id acc) b = max b (maxLockId db) := by
  induction db with
  | nil => simp [maxLockId]
  | cons x xs ih => simp only [maxLockId, List.foldr_cons, ih]; omega

/-- Every lock id is bounded by `maxLockId`. -/
theorem mem_id_le_maxLockId (db : List Lock) (a : Lock) (ha : a ∈ db) :
    a.id ≤ maxLockId db := by
  induction db with
  | nil => cases ha
  | cons x xs ih =>
    rcases List.mem_cons.1 ha with h | h
    · subst h; simp [maxLockId]
    · calc a.id ≤ maxLockId xs := ih h
        _ ≤ maxLockId (x :: xs) := by simp [maxLockId]

/-- Appending the freshly inserted row bumps the maximum id by one. -/
theorem maxLockId_append_fresh (db : List Lock) (now : String) :
    maxLockId (db ++ [placeholderRow (maxLockId db + 1) now]) = maxLockId db + 1 := by
  show (db ++ [placeholderRow (maxLockId db + 1) now]).foldr (fun l acc => max l.id acc) 0
    = maxLockId db + 1
  rw [List.foldr_append, List.foldr_cons, List.foldr_nil]
  show db.foldr (fun l acc => max l.id acc) (max (maxLockId db + 1) 0) = maxLockId db + 1
  rw [Nat.max_zero, foldr_maxId_init]
  omega

/-- The bulk route's repository call in closed form. -/
theorem lockCreate_placeholder (db : List Lock) (now : String) :
    lockCreate db { lock_name := some "Memory Lock", album_title := some "Romeo & Juliet" } now
      = (Except.ok (placeholderRow (maxLockId db + 1) now),
        db ++ [placeholderRow (maxLockId db + 1) now]) := by
  have h1 : db.find? (fun x => x.id == maxLockId db + 1) = none := by
    rw [List.find?_eq_none]
    intro x hx
    have hle : x.id ≤ maxLockId db := mem_id_le_maxLockId db x hx
    simp only [beq_iff_eq]
    omega
  have hfind : findById (db ++ [placeholderRow (maxLockId db + 1) now]) (maxLockId db + 1)
      = some (placeholderRow (maxLockId db + 1) now) := by
    unfold findById
    rw [List.find?_append, h1]
    simp [placeholderRow]
  simp only [lockCreate]
  show (match findById (db ++ [placeholderRow (maxLockId db + 1) now]) (maxLockId db + 1) with
    | none => (Except.error "Failed to retrieve created lock",
        db ++ [placeholderRow (maxLockId db + 1) now])
    | some newLock => (Except.ok newLock, db ++ [placeholderRow (maxLockId db + 1) now]))
    = (Except.ok (placeholderRow (maxLockId db + 1) now),
      db ++ [placeholderRow (maxLockId db + 1) now])
  rw [hfind]

/-- The run of consecutive placeholder rows inserted after a given maximum
id. -/
def placeholderRun (base : Nat) (now : String) : Nat → List Lock
  | 0 => []
  | n + 1 => placeholderRow (base + 1) now :: placeholderRun (base + 1) now n

/-- `placeholderRun` spelled as ids `base + 1, ..., base + n`. -/
theorem placeholderRun_eq_map (base : Nat) (now : String) (n : Nat) :
    placeholderRun base now n
      = (List.range n).map (fun i => placeholderRow (base + 1 + i) now) := by
  induction n generalizing base with
  | zero => rfl
  | succ n ih =>
    rw [show placeholderRun base now (n + 1)
        = placeholderRow (base + 1) now :: placeholderRun (base + 1) now n from rfl,
      ih, List.range_succ_eq_map, List.map_cons, List.map_map]
    refine congrArg₂ List.cons (by rw [Nat.add_zero]) ?_
    refine List.map_congr_left (fun x _ => ?_)
    show placeholderRow (base + 1 + 1 + x) now = placeholderRow (base + 1 + (x + 1)) now
    rw [show base + 1 + 1 + x = base + 1 + (x + 1) from by omega]

/-- The creation loop with no insert failures: appends one placeholder row
per item, counting every item as created and attempted. -/
theorem bulkGo_no_fail (now : String) (idxs : List Nat) (db : List Lock) (c a : Nat) :
    bulkGo (fun _ => false) now idxs db c a
      = (db ++ placeholderRun (maxLockId db) now idxs.length,
         c + idxs.length, a + idxs.length) := by
  induction idxs generalizing db c a with
  | nil => simp [bulkGo, placeholderRun]
  | cons i rest ih =>
    have hstep : bulkGo (fun _ => false) now (i :: rest) db c a
        = bulkGo (fun _ => false) now rest
            (db ++ [placeholderRow (maxLockId db + 1) now]) (c + 1) (a + 1) := by
      show bulkGo (fun _ => false) now rest
        (lockCreate db
          { lock_name := some "Memory Lock", album_title := some "Romeo & Juliet" } now).2
        (c + 1) (a + 1) = _
      rw [lockCreate_placeholder]
    rw [hstep, ih, maxLockId_append_fresh, List.append_assoc, List.singleton_append,
      List.length_cons]
    rw [show placeholderRun (maxLockId db) now (rest.length + 1)
      = placeholderRow (maxLockId db + 1) now
        :: placeholderRun (maxLockId db + 1) now rest.length from rfl]
    rw [show c + 1 + rest.length = c + (rest.length + 1) from by omega,
      show a + 1 + rest.length = a + (rest.length + 1) from by omega]

/-- The creation loop with an arbitrary failure oracle: every item is
attempted, and exactly the non-failing items are created. -/
theorem bulkGo_counts (fails : Nat → Bool) (now : String) (idxs : List Nat)
    (db : List Lock) (c a : Nat) :
    (bulkGo fails now idxs db c a).2.2 = a + idxs.length
      ∧ (bulkGo fails now idxs db c a).2.1
        = c + (idxs.filter (fun i => !(fails i))).length := by
  induction idxs generalizing db c a with
  | nil => simp [bulkGo]
  | cons i rest ih =>
    cases hfi : fails i with
    | true =>
      have hred : bulkGo fails now (i :: rest) db c a
          = bulkGo fails now rest db c (a + 1) := by
        show (if fails i then bulkGo fails now rest db c (a + 1) else _) = _
        rw [hfi]
        rfl
      rw [hred]
      obtain ⟨h1, h2⟩ := ih db c (a + 1)
      refine ⟨by rw [h1, List.length_cons]; omega, ?_⟩
      rw [h2, List.filter_cons, hfi]
      rfl
    | false =>
      have hred : bulkGo fails now (i :: rest) db c a
          = bulkGo fails now rest
              (lockCreate db
                { lock_name := some "Memory Lock", album_title := some "Romeo & Juliet" }
                now).2
              (c + 1) (a + 1) := by
        show (if fails i then _ else _) = _
        rw [hfi]
        rfl
      rw [hred]
      obtain ⟨h1, h2⟩ := ih _ (c + 1) (a + 1)
      refine ⟨by rw [h1, List.length_cons]; omega, ?_⟩
      rw [h2, List.filter_cons, hfi]
      simp only [Bool.not_false, if_true, List.length_cons]
      omega

/-- `getLastLock` returns the row carrying the maximum id (folded from an
arbitrary seed row). -/
theorem getLastLock_aux (xs : List Lock) (b : Lock) :
    ∃ l, xs.foldl (fun acc x => match acc with
        | none => some x
        | some cMax => if x.id > cMax.id then some x else some cMax) (some b) = some l
      ∧ l.id = max b.id (maxLockId xs) := by
  induction xs generalizing b with
  | nil => exact ⟨b, rfl, by simp [maxLockId]⟩
  | cons x xs ih =>
    rw [List.foldl_cons]
    by_cases hc : x.id > b.id
    · obtain ⟨l, hl, hid⟩ := ih x
      refine ⟨l, ?_, ?_⟩
      · rw [← hl]
        congr 1
        simp [hc]
      · rw [hid]
        simp only [maxLockId, List.foldr_cons]
        rw [show xs.foldr (fun l acc => max l.id acc) 0 = maxLockId xs from rfl]
        omega
    · obtain ⟨l, hl, hid⟩ := ih b
      refine ⟨l, ?_, ?_⟩
      · rw [← hl]
        congr 1
        simp [hc]
      · rw [hid]
        simp only [maxLockId, List.foldr_cons]
        rw [show xs.foldr (fun l acc => max l.id acc) 0 = maxLockId xs from rfl]
        omega

/-- The `startId` computed by the bulk route is one past the maximum id. -/
theorem bulk_startId_eq (db : List Lock) :
    (match getLastLock db with
      | some lastLock => lastLock.id + 1
      | none => 1) = maxLockId db + 1 := by
  cases db with
  | nil => rfl
  | cons x xs =>
    obtain ⟨l, hl, hid⟩ := getLastLock_aux xs x
    rw [show getLastLock (x :: xs) = (x :: xs).foldl (fun acc y => match acc with
        | none => some y
        | some cMax => if y.id > cMax.id then some y else some cMax) none from rfl]
    rw [List.foldl_cons]
    rw [show ((match (none : Option Lock) with
        | none => some x
        | some cMax => if x.id > cMax.id then some x else some cMax)) = some x from rfl]
    rw [hl]
    show l.id + 1 = maxLockId (x :: xs) + 1
    rw [hid]
    simp only [maxLockId, List.foldr_cons]

/-- C7: with all inserts succeeding and highest existing id `M`
(`maxLockId db`), `POST /locks/create/:totalLocks` with `1 ≤ n ≤ 10000`
creates exactly `n` locks with consecutive ids `M+1 .. M+n`, each named
"Memory Lock" / "Romeo & Juliet", and reports
"Successfully created n locks (M+1 to M+n)"; a count outside `1..10000` is
rejected before any write. -/
theorem bulk_create_locks_spec (db : List Lock) (now : String) (n : Nat)
    (h1 : 1 ≤ n) (h2 : n ≤ 10000) :
    (bulkCreateLocks (fun _ => false) db now n).1
        = { success := true
            message := "Successfully created " ++ toString n ++ " locks ("
              ++ toString (maxLockId db + 1) ++ " to " ++ toString (maxLockId db + n) ++ ")" }
      ∧ (bulkCreateLocks (fun _ => false) db now n).2.1
          = db ++ (List.range n).map (fun i => placeholderRow (maxLockId db + 1 + i) now)
      ∧ ∀ m : Nat, (m = 0 ∨ m > 10000) →
          bulkCreateLocks (fun _ => false) db now m
            = ({ success := false
                 message := "Invalid totalLocks parameter. Must be between 1 and 10000." },
               db, 0, 0) := by
  have hval : ¬ (n = 0 ∨ n > 10000) := by omega
  have hrun := bulkGo_no_fail now (List.range n) db 0 0
  rw [List.length_range, Nat.zero_add] at hrun
  refine ⟨?_, ?_, ?_⟩
  · simp only [bulkCreateLocks, if_neg hval, bulk_startId_eq, hrun]
    rw [show maxLockId db + 1 + n - 1 = maxLockId db + n from by omega]
  · simp only [bulkCreateLocks, if_neg hval, hrun, placeholderRun_eq_map]
  · intro m hm
    simp only [bulkCreateLocks, if_pos hm]

/-- A lock with the highest id 100, matching the spec scenario. -/
def lock100 : Lock := { freshLock with id := 100 }

/-- Closed witness for C7: creating 5 locks after max id 100. -/
theorem bulk_create_locks_spec_witness :
    (bulkCreateLocks (fun _ => false) [lock100] "2024-05-01T00:00:00.000Z" 5).1
        = { success := true
            message := "Successfully created " ++ toString 5 ++ " locks ("
              ++ toString (maxLockId [lock100] + 1) ++ " to "
              ++ toString (maxLockId [lock100] + 5) ++ ")" }
      ∧ (bulkCreateLocks (fun _ => false) [lock100] "2024-05-01T00:00:00.000Z" 5).2.1
          = [lock100] ++ (List.range 5).map
              (fun i => placeholderRow (maxLockId [lock100] + 1 + i) "2024-05-01T00:00:00.000Z")
      ∧ ∀ m : Nat, (m = 0 ∨ m > 10000) →
          bulkCreateLocks (fun _ => false) [lock100] "2024-05-01T00:00:00.000Z" m
            = ({ success := false
                 message := "Invalid totalLocks parameter. Must be between 1 and 10000." },
               [lock100], 0, 0) :=
  bulk_create_locks_spec [lock100] "2024-05-01T00:00:00.000Z" 5 (by decide) (by decide)

/-- C8: per-item isolation of the bulk creation loop: whatever subset of
inserts fails, every item is still attempted, and the response is a success
envelope reporting how many locks were created (the failed count being the
difference from the requested total) instead of failing the request. -/
theorem bulk_create_isolation (fails : Nat → Bool) (db : List Lock) (now : String) (n : Nat)
    (h1 : 1 ≤ n) (h2 : n ≤ 10000) :
    (bulkCreateLocks fails db now n).2.2.2 = n
      ∧ (bulkCreateLocks fails db now n).2.2.1
          = ((List.range n).filter (fun i => !(fails i))).length
      ∧ (bulkCreateLocks fails db now n).1.success = true
      ∧ (bulkCreateLocks fails db now n).1.message
          = "Successfully created "
            ++ toString ((List.range n).filter (fun i => !(fails i))).length
            ++ " locks (" ++ toString (maxLockId db + 1) ++ " to "
            ++ toString (maxLockId db + ((List.range n).filter (fun i => !(fails i))).length)
            ++ ")" := by
  have hval : ¬ (n = 0 ∨ n > 10000) := by omega
  obtain ⟨hA, hC⟩ := bulkGo_counts fails now (List.range n) db 0 0
  rw [List.length_range, Nat.zero_add] at hA
  rw [Nat.zero_add] at hC
  refine ⟨?_, ?_, ?_, ?_⟩
  · simp only [bulkCreateLocks, if_neg hval]
    exact hA
  · simp only [bulkCreateLocks, if_neg hval]
    exact hC
  · simp only [bulkCreateLocks, if_neg hval]
  · simp only [bulkCreateLocks, if_neg hval, bulk_startId_eq, hC]
    rw [show maxLockId db + 1 + ((List.range n).filter (fun i => !(fails i))).length - 1
      = maxLockId db + ((List.range n).filter (fun i => !(fails i))).length from by omega]

/-- Closed witness for C8: four attempts with the third insert failing. -/
theorem bulk_create_isolation_witness :
    (bulkCreateLocks (fun i => i == 2) [] "2024-05-01T00:00:00.000Z" 4).2.2.2 = 4
      ∧ (bulkCreateLocks (fun i => i == 2) [] "2024-05-01T00:00:00.000Z" 4).2.2.1
          = ((List.range 4).filter (fun i => !(i == 2))).length
      ∧ (bulkCreateLocks (fun i => i == 2) [] "2024-05-01T00:00:00.000Z" 4).1.success = true
      ∧ (bulkCreateLocks (fun i => i == 2) [] "2024-05-01T00:00:00.000Z" 4).1.message
          = "Successfully created "
            ++ toString ((List.range 4).filter (fun i => !(i == 2))).length
            ++ " locks (" ++ toString (maxLockId [] + 1) ++ " to "
            ++ toString (maxLockId [] + ((List.range 4).filter (fun i => !(i == 2))).length)
            ++ ")" :=
  bulk_create_isolation (fun i => i == 2) [] "2024-05-01T00:00:00.000Z" 4
    (by decide) (by decide)

/-- Entry of the in-memory rate-limit store (`rateLimit.ts`). -/
structure RateLimitEntry where
  count : Nat
  resetTime : Nat
  deriving DecidableEq, Repr

/-- `rateLimitStore.get`. -/
def storeGet (s : List (String × RateLimitEntry)) (k : String) : Option RateLimitEntry :=
  (s.find? (fun p => p.1 == k)).map (fun p => p.2)

/-- `rateLimitStore.set`: replace the entry under `k`, or add it. -/
def storeSet (s : List (String × RateLimitEntry)) (k : String) (e : RateLimitEntry) :
    List (String × RateLimitEntry) :=
  if s.any (fun p => p.1 == k) then s.map (fun p => if p.1 == k then (k, e) else p)
  else s ++ [(k, e)]

/-- Whether the middleware invoked `next()` (the protected operation) or
returned the 429 handler response instead. -/
inductive RateOutcome where
  | proceeded
  | rateLimited
  deriving DecidableEq, Repr

/-- One pass through the middleware produced by `rateLimit(config)` for a
fixed key: fetch or (re)initialise the window entry, bump its count in the
store, and reject once the count exceeds the maximum.  The `X-RateLimit-*`
headers are observability only and not modelled. -/
def rateLimitStep (windowMs maxRequests : Nat) (k : String) (now : Nat)
    (store : List (String × RateLimitEntry)) :
    RateOutcome × List (String × RateLimitEntry) :=
  let entry0 : RateLimitEntry := match storeGet store k with
    | none => { count := 0, resetTime := now + windowMs }
    | some e => if now > e.resetTime then { count := 0, resetTime := now + windowMs } else e
  let entry : RateLimitEntry := { count := entry0.count + 1, resetTime := entry0.resetTime }
  let store' := storeSet store k entry
  if entry.count > maxRequests then (RateOutcome.rateLimited, store')
  else (RateOutcome.proceeded, store')

/-- A sequence of requests of one caller against one policy: the outcome of
each request and the final store. -/
def rateLimitRun (windowMs maxRequests : Nat) (k : String) :
    List Nat → List (String × RateLimitEntry) →
      List RateOutcome × List (String × RateLimitEntry)
  | [], s => ([], s)
  | t :: ts, s =>
    let r := rateLimitStep windowMs maxRequests k t s
    let rest := rateLimitRun windowMs maxRequests k ts r.2
    (r.1 :: rest.1, rest.2)

/-- Replacing an existing entry makes it the one subsequently read. -/
theorem find?_map_replace (s : List (String × RateLimitEntry)) (k : String)
    (e : RateLimitEntry) (h : s.any (fun p => p.1 == k) = true) :
    (s.map (fun p => if p.1 == k then (k, e) else p)).find? (fun p => p.1 == k)
      = some (k, e) := by
  induction s with
  | nil => cases h
  | cons p ps ih =>
    by_cases hp : (p.1 == k) = true
    · rw [List.map_cons, if_pos hp, List.find?_cons_of_pos _ (by simp)]
    · rw [List.map_cons, if_neg hp, List.find?_cons_of_neg _ (by simpa using hp)]
      refine ih ?_
      simpa [List.any_cons, hp] using h

/-- `storeSet` followed by `storeGet` on the same key yields the new entry. -/
theorem storeGet_storeSet (s : List (String × RateLimitEntry)) (k : String)
    (e : RateLimitEntry) : storeGet (storeSet s k e) k = some e := by
  unfold storeGet storeSet
  by_cases hany : s.any (fun p => p.1 == k) = true
  · rw [if_pos hany, find?_map_replace s k e hany]
    rfl
  · rw [if_neg hany, List.find?_append]
    have hnone : s.find? (fun p => p.1 == k) = none := by
      rw [List.find?_eq_none]
      intro x hx hpx
      exact hany (List.any_of_mem hx hpx)
    rw [hnone]
    simp

/-- Requests inside an open window count up from the stored count; the reset
deadline never moves. -/
theorem rateLimitRun_window (W N : Nat) (k : String) (ts : List Nat)
    (s : List (String × RateLimitEntry)) (c t0 : Nat)
    (hentry : storeGet s k = some { count := c, resetTime := t0 + W })
    (hts : ∀ t ∈ ts, t ≤ t0 + W) :
    (rateLimitRun W N k ts s).1
        = (List.range ts.length).map
            (fun i => if c + i + 1 > N then RateOutcome.rateLimited else RateOutcome.proceeded)
      ∧ storeGet (rateLimitRun W N k ts s).2 k
        = some { count := c + ts.length, resetTime := t0 + W } := by
  induction ts generalizing s c with
  | nil => exact ⟨rfl, by simpa using hentry⟩
  | cons t ts ih =>
    have htle : ¬ (t > t0 + W) := by
      have := hts t (List.mem_cons_self t ts)
      omega
    have hstep : rateLimitStep W N k t s
        = (if c + 1 > N then RateOutcome.rateLimited else RateOutcome.proceeded,
          storeSet s k { count := c + 1, resetTime := t0 + W }) := by
      simp only [rateLimitStep, hentry, if_neg htle]
      split <;> rfl
    have hget : storeGet (storeSet s k { count := c + 1, resetTime := t0 + W }) k
        = some { count := c + 1, resetTime := t0 + W } := storeGet_storeSet s k _
    obtain ⟨ih1, ih2⟩ := ih (storeSet s k { count := c + 1, resetTime := t0 + W }) (c + 1)
      hget (fun u hu => hts u (List.mem_cons_of_mem t hu))
    have hrun : rateLimitRun W N k (t :: ts) s
        = ((rateLimitStep W N k t s).1 ::
            (rateLimitRun W N k ts (rateLimitStep W N k t s).2).1,
          (rateLimitRun W N k ts (rateLimitStep W N k t s).2).2) := rfl
    rw [hrun, hstep]
    constructor
    · simp only [ih1, List.length_cons, List.range_succ_eq_map, List.map_cons, List.map_map]
      refine congrArg₂ List.cons (by rw [Nat.add_zero]) ?_
      refine List.map_congr_left (fun x _ => ?_)
      simp only [Function.comp]
      rw [show c + (x + 1) + 1 = c + 1 + x + 1 from by omega]
    · rw [ih2, List.length_cons]
      rw [show c + 1 + ts.length = c + (ts.length + 1) from by omega]

/-- C9: for a policy of `N` requests per window of length `W` and one caller
key starting with no window entry, the `i`-th request (0-based) of a burst
inside one window proceeds exactly when `i < N` — so the first `N` proceed
and the `(N+1)`-th is rejected without reaching the protected operation —
and the first request after the window's reset deadline proceeds again. -/
theorem rate_limit_window_spec (W N : Nat) (k : String) (t0 : Nat) (rest : List Nat)
    (s0 : List (String × RateLimitEntry)) (h0 : storeGet s0 k = none) (hN : 1 ≤ N)
    (hrest : ∀ t ∈ rest, t ≤ t0 + W) (t' : Nat) (ht' : t0 + W < t') :
    (rateLimitRun W N k (t0 :: rest) s0).1
        = (List.range (rest.length + 1)).map
            (fun i => if i < N then RateOutcome.proceeded else RateOutcome.rateLimited)
      ∧ (rateLimitStep W N k t' (rateLimitRun W N k (t0 :: rest) s0).2).1
        = RateOutcome.proceeded := by
  have hstep0 : rateLimitStep W N k t0 s0
      = (if 1 > N then RateOutcome.rateLimited else RateOutcome.proceeded,
        storeSet s0 k { count := 1, resetTime := t0 + W }) := by
    simp only [rateLimitStep, h0]
    split <;> rfl
  have hget : storeGet (storeSet s0 k { count := 1, resetTime := t0 + W }) k
      = some { count := 1, resetTime := t0 + W } := storeGet_storeSet s0 k _
  obtain ⟨h1, h2⟩ := rateLimitRun_window W N k rest
    (storeSet s0 k { count := 1, resetTime := t0 + W }) 1 t0 hget hrest
  have hrun : rateLimitRun W N k (t0 :: rest) s0
      = ((rateLimitStep W N k t0 s0).1 ::
          (rateLimitRun W N k rest (rateLimitStep W N k t0 s0).2).1,
        (rateLimitRun W N k rest (rateLimitStep W N k t0 s0).2).2) := rfl
  constructor
  · rw [hrun, hstep0]
    simp only [h1, List.range_succ_eq_map, List.map_cons, List.map_map]
    refine congrArg₂ List.cons ?_ ?_
    · rw [if_neg (by omega), if_pos (by omega)]
    · refine List.map_congr_left (fun x _ => ?_)
      simp only [Function.comp]
      by_cases hx : x + 1 < N
      · rw [if_neg (show ¬ (1 + x + 1 > N) from by omega), if_pos hx]
      · rw [if_pos (show 1 + x + 1 > N from by omega), if_neg hx]
  · rw [hrun, hstep0]
    have h2' : storeGet (rateLimitRun W N k rest
        (storeSet s0 k { count := 1, resetTime := t0 + W })).2 k
        = some { count := 1 + rest.length, resetTime := t0 + W } := h2
    show (rateLimitStep W N k t' (rateLimitRun W N k rest
      (storeSet s0 k { count := 1, resetTime := t0 + W })).2).1 = RateOutcome.proceeded
    simp only [rateLimitStep, h2', if_pos ht']
    rw [if_neg (by omega)]

/-- Closed witness for C9: 61 requests inside one 60-second window against a
policy capped at 60, then one request after the deadline. -/
theorem rate_limit_window_spec_witness :
    (rateLimitRun 60000 60 "apikey:worker" (0 :: List.replicate 60 50) []).1
        = (List.range ((List.replicate 60 50).length + 1)).map
            (fun i => if i < 60 then RateOutcome.proceeded else RateOutcome.rateLimited)
      ∧ (rateLimitStep 60000 60 "apikey:worker" 60001
          (rateLimitRun 60000 60 "apikey:worker" (0 :: List.replicate 60 50) []).2).1
        = RateOutcome.proceeded :=
  rate_limit_window_spec 60000 60 "apikey:worker" 0 (List.replicate 60 50) []
    rfl (by decide) (by decide) 60001 (by decide)

/-- `isNumeric` from `albums.ts`: the regex `^\d+$` — a non-empty string of
ASCII digits. -/
def isNumeric (s : String) : Bool :=
  !s.isEmpty && s.data.all (fun ch => ch.isDigit)

/-- JS `Number(...)` applied to an all-digit string (exact for digit strings;
double precision loss beyond 2^53 is not modelled). -/
def jsNumberOfDigits (s : String) : Int :=
  Int.ofNat (s.toNat?.getD 0)

/-- Response of `GET /album/:identifier`; the `ok` payload keeps the resolved
lock id and its media rows (DTO mapping, the media `ORDER BY`, the 500-row
limit and the hashid re-encoding are presentational and not modelled). -/
inductive AlbumResp where
  | badRequest
  | notFound
  | ok (lockId : Nat) (media : List MediaObject)
  deriving DecidableEq, Repr

/-- The identifier resolution of `GET /album/:identifier`: an all-digit
identifier is taken as the raw integer id, anything else goes through
`hashids.decode` (modelled as an abstract `decode` function) and uses the
first decoded number, if any. -/
def albumLookupId (decode : String → List Int) (identifier : String) : Option Int :=
  if isNumeric identifier then some (jsNumberOfDigits identifier)
  else
    match decode identifier with
    | [] => none
    | d :: _ => some d

/-- The `albums.get('/:identifier')` handler: guard the empty identifier,
resolve the lock id, reject a missing or non-positive id with 404 before any
store access, then fetch the lock and its media.  The second component
records whether the store was touched. -/
def albumGet (decode : String → List Int) (locks : List Lock) (media : List MediaObject)
    (identifier : String) : AlbumResp × Bool :=
  if identifier == "" then (AlbumResp.badRequest, false)
  else
    match albumLookupId decode identifier with
    | none => (AlbumResp.notFound, false)
    | some lockId =>
      if lockId ≤ 0 then (AlbumResp.notFound, false)
      else
        match findById locks lockId.toNat with
        | none => (AlbumResp.notFound, true)
        | some lock =>
          (AlbumResp.ok lock.id (media.filter (fun mo => mo.lock_id == lock.id)), true)

/-- C10: an all-digit identifier is resolved as the raw integer id and the
handler's behaviour is independent of the hashid decoder; a non-empty
non-numeric identifier that fails to decode or decodes to a non-positive
number yields 404 with no store access. -/
theorem album_identifier_routing (d1 d2 : String → List Int) (locks : List Lock)
    (media : List MediaObject) (s : String) :
    (isNumeric s = true →
      albumGet d1 locks media s = albumGet d2 locks media s
        ∧ albumLookupId d1 s = some (jsNumberOfDigits s))
    ∧ (isNumeric s = false → s ≠ "" →
        (d1 s = [] ∨ ∃ v rest, d1 s = v :: rest ∧ v ≤ 0) →
        albumGet d1 locks media s = (AlbumResp.notFound, false)) := by
  constructor
  · intro hnum
    have hne : s ≠ "" := by
      intro hcontra
      rw [hcontra] at hnum
      exact absurd hnum (by decide)
    have hs : ¬ ((s == "") = true) := by simpa using hne
    constructor
    · simp only [albumGet, if_neg hs, albumLookupId, hnum, if_true]
    · simp only [albumLookupId, hnum, if_true]
  · intro hnum hne hdec
    have hs : ¬ ((s == "") = true) := by simpa using hne
    have hnum' : ¬ (isNumeric s = true) := by rw [hnum]; exact Bool.false_ne_true
    rcases hdec with h | ⟨v, rest, hd, hv⟩
    · simp only [albumGet, if_neg hs, albumLookupId, if_neg hnum', h]
    · simp only [albumGet, if_neg hs, albumLookupId, if_neg hnum', hd, if_pos hv]

/-- A decoder that never decodes. -/
def decodeNone : String → List Int := fun _ => []

/-- A decoder that decodes everything to lock 7. -/
def decodeSeven : String → List Int := fun _ => [7]

/-- Closed witness for C10: the digit identifier "123" resolves identically
under two different decoders, and the non-numeric identifier "zzz" that
fails to decode gives 404 without touching the store. -/
theorem album_identifier_routing_witness :
    (albumGet decodeNone [freshLock] [] "123" = albumGet decodeSeven [freshLock] [] "123"
      ∧ albumLookupId decodeNone "123" = some (jsNumberOfDigits "123"))
    ∧ albumGet decodeNone [freshLock] [] "zzz" = (AlbumResp.notFound, false) :=
  ⟨(album_identifier_routing decodeNone decodeSeven [freshLock] [] "123").1 (by decide),
   (album_identifier_routing decodeNone decodeSeven [freshLock] [] "zzz").2 (by decide)
     (by decide) (Or.inl rfl)⟩

end MLDW
